import Mathlib

/-!
# Verification of the go-astisub subtitle library

This file shallowly embeds the core of the `astisub` Go package — the
unified subtitle data model (`Subtitles`, `Item`, `Line`, `LineItem`,
`StyleAttributes`), the style cross-propagation functions, the duration
codec, the document operations (`Add`, `Order`, `Unfragment`) and the
STL character decoder and format writers — and proves properties of the
embedded definitions.

Modelling conventions:
* Go `time.Duration` is an `Int` counting nanoseconds.
* Go pointer fields (`*T`) are modelled as `Option T`: `nil` is `none`
  and pointer dereference is `Option.get`/pattern matching.  Pointer
  identity is abstracted away: two pointers to equal values are
  identified.  The package-level `*string` constants
  `ttmlFontWeightBold`, `ttmlFontStyleItalic` and
  `ttmlTextDecorationUnderline` (declared in the repository's
  `ttml.go`, which is not among the provided sources; their values are
  the spec's §4.2 words "bold", "italic", "underline") therefore become
  `some "bold"` etc., and Go's pointer comparisons with them become
  value comparisons.
* Go `int` is `Int`; Go integer division truncates towards zero, which
  is `Int.tdiv`.
* Go `float64` fields that are only ever stored and copied (never
  computed with in the embedded code) are kept as Lean `Float`.
* Go strings are Lean `String`s; `strings.Split` is `goSplit`
  (defined below from Go's scan-and-cut loop), `strings.TrimSpace`
  is `String.trim`, `strings.ReplaceAll` is `String.replace`,
  `strings.HasPrefix` is `String.startsWith`.
-/

namespace Astisub

/-- Go `time.Duration`: nanoseconds as a signed integer. -/
abbrev GoDuration := Int

/-- `time.Millisecond`. -/
def msec : GoDuration := 1000000

/-- `time.Second`. -/
def sec : GoDuration := 1000000000

/-- `time.Minute`. -/
def minute : GoDuration := 60000000000

/-- `time.Hour`. -/
def hour : GoDuration := 3600000000000

/-- Go integer division (truncation towards zero), `a / b` on Go ints. -/
def goDiv (a b : Int) : Int := Int.tdiv a b

/-- The value of a list of decimal digit characters (the accumulation
loop shared by integer parsing). -/
def digitsToNat (l : List Char) : Nat :=
  l.foldl (fun a c => a * 10 + (c.toNat - 48)) 0

/-- Go `strconv.Atoi`: optional sign followed by at least one decimal
digit; anything else is an error (`none`).  64-bit overflow is not
modelled. -/
def goAtoi (s : String) : Option Int :=
  match s.toList with
  | [] => none
  | c :: rest =>
    let (neg, digits) :=
      if c = '-' then (true, rest)
      else if c = '+' then (false, rest)
      else (false, c :: rest)
    if digits.isEmpty then none
    else if digits.all Char.isDigit then
      some (if neg then -(digitsToNat digits : Int) else (digitsToNat digits : Int))
    else none

/-- First index at which `sep` occurs as a sublist of `s` (Go
`strings.Index`). -/
def findSubIdx (sep : List Char) : List Char → Option Nat
  | [] => if sep.isEmpty then some 0 else none
  | x :: rest =>
    if sep.isPrefixOf (x :: rest) then some 0
    else (findSubIdx sep rest).map (· + 1)

theorem findSubIdx_lt_length {sep : List Char} (hsep : sep ≠ []) :
    ∀ {s : List Char} {i : Nat}, findSubIdx sep s = some i → i < s.length := by
  intro s
  induction s with
  | nil => intro i h; simp [findSubIdx, List.isEmpty_iff.2, hsep] at h
  | cons x rest ih =>
    intro i h
    simp only [findSubIdx] at h
    split_ifs at h with hp
    · cases h; simp
    · rcases Option.map_eq_some'.1 h with ⟨j, hj, rfl⟩
      simpa using Nat.succ_lt_succ (ih hj)

/-- The scanning loop of Go `strings.Split` for a non-empty separator
`c :: cs`: cut at the first occurrence and continue after it. -/
def goSplitCore (c : Char) (cs : List Char) (s : List Char) : List (List Char) :=
  match h : findSubIdx (c :: cs) s with
  | none => [s]
  | some i => s.take i :: goSplitCore c cs (s.drop (i + (c :: cs).length))
termination_by s.length
decreasing_by
  have hi := findSubIdx_lt_length (by simp) h
  simp only [List.length_drop, List.length_cons]
  omega

/-- Go `strings.Split`.  A non-empty separator splits around each
non-overlapping occurrence; the empty separator splits into single
runes (and yields `[]` on the empty string), as in Go. -/
def goSplit (s sep : String) : List String :=
  match sep.toList with
  | [] => s.toList.map String.singleton
  | c :: cs => (goSplitCore c cs s.toList).map (fun l => ⟨l⟩)

/-- `Color` (`subtitles.go`): an RGBA color; each component is a Go
`uint8`, modelled as a `Nat` (all stored values fit in a byte). -/
structure Color where
  Alpha : Nat := 0
  Blue : Nat := 0
  Green : Nat := 0
  Red : Nat := 0
  deriving DecidableEq, Repr

/-- Lowercase hexadecimal rendering of a `Nat`, zero-padded to at least
`w` digits — Go's `fmt.Sprintf("%.wx", v)` for non-negative values. -/
def hexPad (v : Nat) (w : Nat) : String :=
  let ds := Nat.toDigits 16 v
  ⟨List.replicate (w - ds.length) '0' ++ ds⟩

/-- `Color.TTMLString` (`subtitles.go`): `fmt.Sprintf("%.6x",
r<<16|g<<8|b)`. -/
def Color.TTMLString (c : Color) : String :=
  hexPad (c.Red * 65536 + c.Green * 256 + c.Blue) 6

/-- `Justification` (`subtitles.go`): a named Go `int` type. -/
abbrev Justification := Int

/-- `JustificationUnchanged`. -/
def JustificationUnchanged : Justification := 1

/-- `JustificationLeft`. -/
def JustificationLeft : Justification := 2

/-- `JustificationCentered`. -/
def JustificationCentered : Justification := 3

/-- `JustificationRight`. -/
def JustificationRight : Justification := 4

/-- `STLPosition`.  The type is declared in the repository's
`teletext.go`, which is not among the provided sources; the fields are
reconstructed from its uses in `propagateSTLAttributes`
(`VerticalPosition`, `MaxRows`) and the spec's §4.2 row/max-rows
description. -/
structure STLPosition where
  MaxRows : Int := 0
  Rows : Int := 0
  VerticalPosition : Int := 0
  deriving DecidableEq, Repr

/-- `StyleAttributes` (`subtitles.go`): one field cluster per source
format.  Field order and types follow the Go struct; `*T` becomes
`Option T`. -/
structure StyleAttributes where
  SRTBold : Bool := false
  SRTItalic : Bool := false
  SRTUnderline : Bool := false
  SSAAlignment : Option Int := none
  SSAAlphaLevel : Option Float := none
  SSAAngle : Option Float := none
  SSABackColour : Option Color := none
  SSABold : Option Bool := none
  SSABorderStyle : Option Int := none
  SSAEffect : String := ""
  SSAEncoding : Option Int := none
  SSAFontName : String := ""
  SSAFontSize : Option Float := none
  SSAItalic : Option Bool := none
  SSALayer : Option Int := none
  SSAMarginLeft : Option Int := none
  SSAMarginRight : Option Int := none
  SSAMarginVertical : Option Int := none
  SSAMarked : Option Bool := none
  SSAOutline : Option Float := none
  SSAOutlineColour : Option Color := none
  SSAPrimaryColour : Option Color := none
  SSAScaleX : Option Float := none
  SSAScaleY : Option Float := none
  SSASecondaryColour : Option Color := none
  SSAShadow : Option Float := none
  SSASpacing : Option Float := none
  SSAStrikeout : Option Bool := none
  SSAUnderline : Option Bool := none
  STLBoxing : Option Bool := none
  STLItalics : Option Bool := none
  STLJustification : Option Justification := none
  STLPosition : Option STLPosition := none
  STLUnderline : Option Bool := none
  TeletextColor : Option Color := none
  TeletextDoubleHeight : Option Bool := none
  TeletextDoubleSize : Option Bool := none
  TeletextDoubleWidth : Option Bool := none
  TeletextSpacesAfter : Option Int := none
  TeletextSpacesBefore : Option Int := none
  TTMLBackgroundColor : Option String := none
  TTMLColor : Option String := none
  TTMLDirection : Option String := none
  TTMLDisplay : Option String := none
  TTMLDisplayAlign : Option String := none
  TTMLExtent : Option String := none
  TTMLFontFamily : Option String := none
  TTMLFontSize : Option String := none
  TTMLFontStyle : Option String := none
  TTMLFontWeight : Option String := none
  TTMLLineHeight : Option String := none
  TTMLOpacity : Option String := none
  TTMLOrigin : Option String := none
  TTMLOverflow : Option String := none
  TTMLPadding : Option String := none
  TTMLShowBackground : Option String := none
  TTMLTextAlign : Option String := none
  TTMLTextDecoration : Option String := none
  TTMLTextOutline : Option String := none
  TTMLUnicodeBidi : Option String := none
  TTMLVisibility : Option String := none
  TTMLWrapOption : Option String := none
  TTMLWritingMode : Option String := none
  TTMLZIndex : Option Int := none
  WebVTTAlign : String := ""
  WebVTTBold : Bool := false
  WebVTTItalics : Bool := false
  WebVTTLine : String := ""
  WebVTTLines : Int := 0
  WebVTTPosition : String := ""
  WebVTTRegionAnchor : String := ""
  WebVTTScroll : String := ""
  WebVTTSize : String := ""
  WebVTTUnderline : Bool := false
  WebVTTVertical : String := ""
  WebVTTViewportAnchor : String := ""
  WebVTTWidth : String := ""

/-- The `*string` constant `ttmlFontWeightBold` (value model, see the
file header). -/
def ttmlFontWeightBold : Option String := some "bold"

/-- The `*string` constant `ttmlFontStyleItalic` (value model). -/
def ttmlFontStyleItalic : Option String := some "italic"

/-- The `*string` constant `ttmlTextDecorationUnderline` (value
model). -/
def ttmlTextDecorationUnderline : Option String := some "underline"

/-!
The six propagation methods mutate `sa` through a sequence of guarded
assignments.  No propagation method ever reads a field that it writes
(each method's guards only inspect its own namespace's fields, which it
never assigns — directly checkable against the Go source), so the
sequence of guarded assignments is equivalent to a single simultaneous
record update in which every written field is given a conditional
expression over the *original* value.  The embeddings below use that
single-update form; each conditional mirrors one `if` of the source.
-/

/-- `(*StyleAttributes).propagateSRTAttributes` (`subtitles.go`).
`sa.SSABold = &sa.SRTBold` stores (a pointer to) the current `SRTBold`
value, i.e. `some sa.SRTBold`. -/
def StyleAttributes.propagateSRTAttributes (sa : StyleAttributes) : StyleAttributes :=
  { sa with
    SSABold := bif sa.SRTBold then some sa.SRTBold else sa.SSABold
    TTMLFontWeight := bif sa.SRTBold then ttmlFontWeightBold else sa.TTMLFontWeight
    WebVTTBold := bif sa.SRTBold then sa.SRTBold else sa.WebVTTBold
    SSAItalic := bif sa.SRTItalic then some sa.SRTItalic else sa.SSAItalic
    STLItalics := bif sa.SRTItalic then some sa.SRTItalic else sa.STLItalics
    TTMLFontStyle := bif sa.SRTItalic then ttmlFontStyleItalic else sa.TTMLFontStyle
    WebVTTItalics := bif sa.SRTItalic then sa.SRTItalic else sa.WebVTTItalics
    SSAUnderline := bif sa.SRTUnderline then some sa.SRTUnderline else sa.SSAUnderline
    STLUnderline := bif sa.SRTUnderline then some sa.SRTUnderline else sa.STLUnderline
    TTMLTextDecoration :=
      bif sa.SRTUnderline then ttmlTextDecorationUnderline else sa.TTMLTextDecoration
    WebVTTUnderline := bif sa.SRTUnderline then sa.SRTUnderline else sa.WebVTTUnderline }

/-- `(*StyleAttributes).propagateSSAAttributes` (`subtitles.go`). -/
def StyleAttributes.propagateSSAAttributes (sa : StyleAttributes) : StyleAttributes :=
  { sa with
    SRTBold := match sa.SSABold with | some b => b | none => sa.SRTBold
    TTMLFontWeight :=
      match sa.SSABold with | some _ => ttmlFontWeightBold | none => sa.TTMLFontWeight
    WebVTTBold := match sa.SSABold with | some b => b | none => sa.WebVTTBold
    SRTItalic := match sa.SSAItalic with | some b => b | none => sa.SRTItalic
    STLItalics := match sa.SSAItalic with | some _ => sa.SSAItalic | none => sa.STLItalics
    TTMLFontStyle :=
      match sa.SSAItalic with | some _ => ttmlFontStyleItalic | none => sa.TTMLFontStyle
    WebVTTItalics := match sa.SSAItalic with | some b => b | none => sa.WebVTTItalics
    SRTUnderline := match sa.SSAUnderline with | some b => b | none => sa.SRTUnderline
    STLUnderline :=
      match sa.SSAUnderline with | some _ => sa.SSAUnderline | none => sa.STLUnderline
    TTMLTextDecoration :=
      match sa.SSAUnderline with
      | some _ => ttmlTextDecorationUnderline | none => sa.TTMLTextDecoration
    WebVTTUnderline :=
      match sa.SSAUnderline with | some b => b | none => sa.WebVTTUnderline }

/-- `fmt.Sprintf("%d%%", n)` for a Go int `n`. -/
def sprintfIntPct (n : Int) : String := toString n ++ "%"

/-- `(*StyleAttributes).propagateSTLAttributes` (`subtitles.go`):
justification mapping, row-position to WebVTT line-percentage
conversion (with the special-cased teletext 23-row grid), and
italics/underline fan-out. -/
def StyleAttributes.propagateSTLAttributes (sa : StyleAttributes) : StyleAttributes :=
  { sa with
    WebVTTAlign :=
      match sa.STLJustification with
      | some j =>
        if j = JustificationCentered then "center"
        else if j = JustificationRight then "end"
        else if j = JustificationLeft then "start"
        else sa.WebVTTAlign
      | none => sa.WebVTTAlign
    TTMLTextAlign :=
      match sa.STLJustification with
      | some j =>
        if j = JustificationCentered then some "center"
        else if j = JustificationRight then some "end"
        else if j = JustificationLeft then some "start"
        else sa.TTMLTextAlign
      | none => sa.TTMLTextAlign
    WebVTTLine :=
      -- converts STL vertical position (row number) to WebVTT line
      -- percentage; on a 23-row teletext grid rows above 0 are shifted
      -- up by one before conversion
      match sa.STLPosition with
      | some p =>
        if p.MaxRows > 0 then
          if p.MaxRows = 23 ∧ p.VerticalPosition > 0 then
            sprintfIntPct (goDiv ((p.VerticalPosition - 1) * 100) p.MaxRows)
          else sprintfIntPct (goDiv (p.VerticalPosition * 100) p.MaxRows)
        else sa.WebVTTLine
      | none => sa.WebVTTLine
    SRTItalic := match sa.STLItalics with | some b => b | none => sa.SRTItalic
    SSAItalic := match sa.STLItalics with | some _ => sa.STLItalics | none => sa.SSAItalic
    TTMLFontStyle :=
      match sa.STLItalics with | some _ => ttmlFontStyleItalic | none => sa.TTMLFontStyle
    WebVTTItalics := match sa.STLItalics with | some b => b | none => sa.WebVTTItalics
    SRTUnderline := match sa.STLUnderline with | some b => b | none => sa.SRTUnderline
    SSAUnderline :=
      match sa.STLUnderline with | some _ => sa.STLUnderline | none => sa.SSAUnderline
    TTMLTextDecoration :=
      match sa.STLUnderline with
      | some _ => ttmlTextDecorationUnderline | none => sa.TTMLTextDecoration
    WebVTTUnderline :=
      match sa.STLUnderline with | some b => b | none => sa.WebVTTUnderline }

/-- `(*StyleAttributes).propagateTeletextAttributes`
(`subtitles.go`). -/
def StyleAttributes.propagateTeletextAttributes (sa : StyleAttributes) : StyleAttributes :=
  { sa with
    TTMLColor :=
      match sa.TeletextColor with
      | some c => some ("#" ++ c.TTMLString)
      | none => sa.TTMLColor }

/-- The writing-mode test `sa.TTMLWritingMode != nil &&
strings.HasPrefix(*sa.TTMLWritingMode, "tb")` used twice by
`propagateTTMLAttributes`. -/
def StyleAttributes.ttmlWritingModeTB (sa : StyleAttributes) : Bool :=
  match sa.TTMLWritingMode with
  | some m => m.startsWith "tb"
  | none => false

/-- `(*StyleAttributes).propagateTTMLAttributes` (`subtitles.go`):
text-align, extent and origin conversion to WebVTT region/cue settings,
and font-weight/style/decoration fan-out. -/
def StyleAttributes.propagateTTMLAttributes (sa : StyleAttributes) : StyleAttributes :=
  { sa with
    WebVTTAlign :=
      match sa.TTMLTextAlign with | some a => a | none => sa.WebVTTAlign
    -- region/cue settings derived from `TTMLExtent` ("width height"),
    -- with an assumed line height of 5 (`lineHeight := 5`)
    WebVTTWidth :=
      match sa.TTMLExtent with
      | some e =>
        if (goSplit e " ").length > 1 then (goSplit e " ")[0]! else sa.WebVTTWidth
      | none => sa.WebVTTWidth
    WebVTTLines :=
      match sa.TTMLExtent with
      | some e =>
        if (goSplit e " ").length > 1 then
          match goAtoi (((goSplit e " ")[1]!).replace "%" "") with
          | some height => goDiv height 5
          | none => sa.WebVTTLines
        else sa.WebVTTLines
      | none => sa.WebVTTLines
    WebVTTSize :=
      match sa.TTMLExtent with
      | some e =>
        if (goSplit e " ").length > 1 then
          if sa.ttmlWritingModeTB then (goSplit e " ")[0]! else (goSplit e " ")[1]!
        else sa.WebVTTSize
      | none => sa.WebVTTSize
    -- region/cue settings derived from `TTMLOrigin` ("x y")
    WebVTTRegionAnchor :=
      match sa.TTMLOrigin with
      | some _ => "0%,0%"
      | none => sa.WebVTTRegionAnchor
    WebVTTViewportAnchor :=
      match sa.TTMLOrigin with
      | some og => (og.trim).replace " " ","
      | none => sa.WebVTTViewportAnchor
    WebVTTScroll :=
      match sa.TTMLOrigin with
      | some _ => "up"
      | none => sa.WebVTTScroll
    WebVTTLine :=
      match sa.TTMLOrigin with
      | some og =>
        if (goSplit og " ").length > 1 then
          if sa.ttmlWritingModeTB then (goSplit og " ")[1]! else (goSplit og " ")[0]!
        else sa.WebVTTLine
      | none => sa.WebVTTLine
    WebVTTPosition :=
      match sa.TTMLOrigin with
      | some og =>
        if (goSplit og " ").length > 1 then
          if sa.ttmlWritingModeTB then (goSplit og " ")[0]! else (goSplit og " ")[1]!
        else sa.WebVTTPosition
      | none => sa.WebVTTPosition
    SRTBold := if sa.TTMLFontWeight = ttmlFontWeightBold then true else sa.SRTBold
    SSABold := if sa.TTMLFontWeight = ttmlFontWeightBold then some true else sa.SSABold
    WebVTTBold := if sa.TTMLFontWeight = ttmlFontWeightBold then true else sa.WebVTTBold
    SSAItalic := if sa.TTMLFontStyle = ttmlFontStyleItalic then some true else sa.SSAItalic
    SRTItalic := if sa.TTMLFontStyle = ttmlFontStyleItalic then true else sa.SRTItalic
    STLItalics := if sa.TTMLFontStyle = ttmlFontStyleItalic then some true else sa.STLItalics
    WebVTTItalics := if sa.TTMLFontStyle = ttmlFontStyleItalic then true else sa.WebVTTItalics
    SRTUnderline :=
      if sa.TTMLTextDecoration = ttmlTextDecorationUnderline then true else sa.SRTUnderline
    SSAUnderline :=
      if sa.TTMLTextDecoration = ttmlTextDecorationUnderline then some true
      else sa.SSAUnderline
    STLUnderline :=
      if sa.TTMLTextDecoration = ttmlTextDecorationUnderline then some true
      else sa.STLUnderline
    WebVTTUnderline :=
      if sa.TTMLTextDecoration = ttmlTextDecorationUnderline then true
      else sa.WebVTTUnderline }

/-- `(*StyleAttributes).propagateWebVTTAttributes` (`subtitles.go`). -/
def StyleAttributes.propagateWebVTTAttributes (sa : StyleAttributes) : StyleAttributes :=
  { sa with
    SRTBold := bif sa.WebVTTBold then sa.WebVTTBold else sa.SRTBold
    SSABold := bif sa.WebVTTBold then some sa.WebVTTBold else sa.SSABold
    TTMLFontWeight := bif sa.WebVTTBold then ttmlFontWeightBold else sa.TTMLFontWeight
    SSAItalic := bif sa.WebVTTItalics then some sa.WebVTTItalics else sa.SSAItalic
    SRTItalic := bif sa.WebVTTItalics then sa.WebVTTItalics else sa.SRTItalic
    STLItalics := bif sa.WebVTTItalics then some sa.WebVTTItalics else sa.STLItalics
    TTMLFontStyle := bif sa.WebVTTItalics then ttmlFontStyleItalic else sa.TTMLFontStyle
    SRTUnderline := bif sa.WebVTTUnderline then sa.WebVTTUnderline else sa.SRTUnderline
    SSAUnderline := bif sa.WebVTTUnderline then some sa.WebVTTUnderline else sa.SSAUnderline
    STLUnderline := bif sa.WebVTTUnderline then some sa.WebVTTUnderline else sa.STLUnderline
    TTMLTextDecoration :=
      bif sa.WebVTTUnderline then ttmlTextDecorationUnderline
      else sa.TTMLTextDecoration }

end Astisub

/-! ## Propagation idempotence (spec §4.2) -/

namespace Astisub

/-- `propagateSRTAttributes` is idempotent. -/
theorem propagateSRTAttributes_idem (sa : StyleAttributes) :
    sa.propagateSRTAttributes.propagateSRTAttributes = sa.propagateSRTAttributes := by
  simp only [StyleAttributes.propagateSRTAttributes]
  cases hb : sa.SRTBold <;> cases hi : sa.SRTItalic <;> cases hu : sa.SRTUnderline <;> rfl

/-- `propagateSSAAttributes` is idempotent. -/
theorem propagateSSAAttributes_idem (sa : StyleAttributes) :
    sa.propagateSSAAttributes.propagateSSAAttributes = sa.propagateSSAAttributes := by
  simp only [StyleAttributes.propagateSSAAttributes]
  rcases hb : sa.SSABold with _ | b <;> rcases hi : sa.SSAItalic with _ | i <;>
    rcases hu : sa.SSAUnderline with _ | u <;> simp [hb, hi, hu]

/-- `propagateSTLAttributes` is idempotent. -/
theorem propagateSTLAttributes_idem (sa : StyleAttributes) :
    sa.propagateSTLAttributes.propagateSTLAttributes = sa.propagateSTLAttributes := by
  simp only [StyleAttributes.propagateSTLAttributes]
  rcases hj : sa.STLJustification with _ | j <;> rcases hp : sa.STLPosition with _ | p <;>
    rcases hi : sa.STLItalics with _ | i <;> rcases hu : sa.STLUnderline with _ | u <;>
    simp [hj, hp, hi, hu] <;> split_ifs <;> simp_all

/-- `propagateTeletextAttributes` is idempotent. -/
theorem propagateTeletextAttributes_idem (sa : StyleAttributes) :
    sa.propagateTeletextAttributes.propagateTeletextAttributes
      = sa.propagateTeletextAttributes := by
  simp only [StyleAttributes.propagateTeletextAttributes]
  rcases h : sa.TeletextColor with _ | c <;> simp [h]

set_option maxHeartbeats 3200000 in
/-- `propagateTTMLAttributes` is idempotent. -/
theorem propagateTTMLAttributes_idem (sa : StyleAttributes) :
    sa.propagateTTMLAttributes.propagateTTMLAttributes = sa.propagateTTMLAttributes := by
  simp only [StyleAttributes.propagateTTMLAttributes, StyleAttributes.ttmlWritingModeTB]
  rcases ha : sa.TTMLTextAlign with _ | a <;> rcases he : sa.TTMLExtent with _ | e <;>
    rcases ho : sa.TTMLOrigin with _ | og <;>
    simp [ha, he, ho] <;> split_ifs <;> simp_all <;>
    rcases goAtoi (((goSplit e " ")[1]!).replace "%" "") with _ | ht <;> rfl

/-- `propagateWebVTTAttributes` is idempotent. -/
theorem propagateWebVTTAttributes_idem (sa : StyleAttributes) :
    sa.propagateWebVTTAttributes.propagateWebVTTAttributes
      = sa.propagateWebVTTAttributes := by
  simp only [StyleAttributes.propagateWebVTTAttributes]
  cases hb : sa.WebVTTBold <;> cases hi : sa.WebVTTItalics <;>
    cases hu : sa.WebVTTUnderline <;> rfl

/-- The six namespace propagation functions of `subtitles.go`. -/
def propagationFunctions : List (StyleAttributes → StyleAttributes) :=
  [StyleAttributes.propagateSRTAttributes,
   StyleAttributes.propagateSSAAttributes,
   StyleAttributes.propagateSTLAttributes,
   StyleAttributes.propagateTeletextAttributes,
   StyleAttributes.propagateTTMLAttributes,
   StyleAttributes.propagateWebVTTAttributes]

/-- C2: for every `StyleAttributes` value and every namespace
propagation function, applying the function twice yields exactly the
same `StyleAttributes` value as applying it once. -/
theorem c2_propagation_idempotent (p : StyleAttributes → StyleAttributes)
    (hp : p ∈ propagationFunctions) (sa : StyleAttributes) : p (p sa) = p sa := by
  simp only [propagationFunctions, List.mem_cons, List.not_mem_nil, or_false] at hp
  rcases hp with h | h | h | h | h | h <;> subst h
  · exact propagateSRTAttributes_idem sa
  · exact propagateSSAAttributes_idem sa
  · exact propagateSTLAttributes_idem sa
  · exact propagateTeletextAttributes_idem sa
  · exact propagateTTMLAttributes_idem sa
  · exact propagateWebVTTAttributes_idem sa

/-- Witness for C2: instantiated at the SRT propagation function and a
concrete attribute value. -/
theorem c2_propagation_idempotent_witness :
    StyleAttributes.propagateSRTAttributes
        (StyleAttributes.propagateSRTAttributes { SRTBold := true })
      = StyleAttributes.propagateSRTAttributes { SRTBold := true } :=
  c2_propagation_idempotent StyleAttributes.propagateSRTAttributes
    (by simp [propagationFunctions]) { SRTBold := true }

end Astisub

/-! ## C7: STL row position to WebVTT line percentage -/

namespace Astisub

/-- C7 counterexample: with `MaxRows = 23` and `VerticalPosition = 0`,
`propagateSTLAttributes` sets `WebVTTLine` to `"0%"`
(`0*100/23`), not to `"-4%"` (`(0-1)*100/23`) as the claim's
unconditional "(row-1) when MaxRows = 23" formula requires. -/
theorem c7_stl_position_counterexample :
    (StyleAttributes.propagateSTLAttributes
        { STLPosition := some { MaxRows := 23, VerticalPosition := 0 } }).WebVTTLine = "0%"
      ∧ sprintfIntPct (goDiv ((0 - 1) * 100) 23) = "-4%" ∧ ("0%" : String) ≠ "-4%" := by
  refine ⟨rfl, rfl, ?_⟩
  decide

/-- C7 (amended): for every `StyleAttributes` whose `STLPosition` is set
with `MaxRows > 0`, STL propagation sets `WebVTTLine` to the percentage
`(VerticalPosition-1)*100/MaxRows` when `MaxRows = 23` **and**
`VerticalPosition > 0`, and to `VerticalPosition*100/MaxRows` in every
other case (in particular when `MaxRows = 23` but `VerticalPosition ≤ 0`). -/
theorem c7_stl_position_webvtt_line (sa : StyleAttributes) (p : STLPosition)
    (hp : sa.STLPosition = some p) (hm : p.MaxRows > 0) :
    (sa.propagateSTLAttributes).WebVTTLine =
      if p.MaxRows = 23 ∧ p.VerticalPosition > 0 then
        sprintfIntPct (goDiv ((p.VerticalPosition - 1) * 100) p.MaxRows)
      else sprintfIntPct (goDiv (p.VerticalPosition * 100) p.MaxRows) := by
  simp only [StyleAttributes.propagateSTLAttributes, hp]
  rw [if_pos hm]

/-- Witness for C7 at the teletext grid: row 22 of 23 maps to `"91%"`. -/
theorem c7_stl_position_webvtt_line_witness :
    (StyleAttributes.propagateSTLAttributes
        { STLPosition := some { MaxRows := 23, VerticalPosition := 22 } }).WebVTTLine
      = "91%" := by
  rw [c7_stl_position_webvtt_line
    { STLPosition := some { MaxRows := 23, VerticalPosition := 22 } }
    { MaxRows := 23, VerticalPosition := 22 } rfl (by decide)]
  rfl

end Astisub

/-! ## Document model (`subtitles.go`) -/

namespace Astisub

/-- Go `strings.Join`. -/
def goJoin (xs : List String) (sep : String) : String := String.intercalate sep xs

/-- `Style` (`subtitles.go`): a named reusable formatting descriptor
with an optional parent style (`Style.Style` is a `*Style` in Go, hence
the recursive `Option`). -/
inductive Style where
  | mk (ID : String) (InlineStyle : Option StyleAttributes) (Style : Option Style)

/-- `Region` (`subtitles.go`). -/
structure Region where
  ID : String := ""
  InlineStyle : Option StyleAttributes := none
  Style : Option Style := none

/-- `LineItem` (`subtitles.go`): a text run with optional styling. -/
structure LineItem where
  InlineStyle : Option StyleAttributes := none
  Style : Option Style := none
  Text : String := ""

/-- `Line` (`subtitles.go`): a visual row of `LineItem`s. -/
structure Line where
  Items : List LineItem := []
  VoiceName : String := ""

/-- `Line.String` (`subtitles.go`): joins the items' texts with a
space. -/
def Line.string (l : Line) : String :=
  goJoin (l.Items.map (·.Text)) " "

/-- `Item` (`subtitles.go`): one cue. -/
structure Item where
  Comments : List String := []
  Index : Int := 0
  EndAt : GoDuration := 0
  InlineStyle : Option StyleAttributes := none
  Lines : List Line := []
  Region : Option Region := none
  StartAt : GoDuration := 0
  Style : Option Style := none

/-- `Item.String` (`subtitles.go`): joins the lines' strings with
`" - "`. -/
def Item.string (i : Item) : String :=
  goJoin (i.Lines.map Line.string) " - "

/-- Go `time.Time`, observed by the embedded code only through its
`Format("060102")` rendering (STL creation/revision dates); modelled by
that rendering. -/
structure GoTime where
  format060102 : String := ""

/-- `Metadata` (`subtitles.go`): document-level descriptors. -/
structure Metadata where
  Comments : List String := []
  Framerate : Int := 0
  Language : String := ""
  SSACollisions : String := ""
  SSAOriginalEditing : String := ""
  SSAOriginalScript : String := ""
  SSAOriginalTiming : String := ""
  SSAOriginalTranslation : String := ""
  SSAPlayDepth : Option Int := none
  SSAPlayResX : Option Int := none
  SSAPlayResY : Option Int := none
  SSAScriptType : String := ""
  SSAScriptUpdatedBy : String := ""
  SSASynchPoint : String := ""
  SSATimer : Option Float := none
  SSAUpdateDetails : String := ""
  SSAWrapStyle : String := ""
  STLCountryOfOrigin : String := ""
  STLCreationDate : Option GoTime := none
  STLDisplayStandardCode : String := ""
  STLEditorContactDetails : String := ""
  STLEditorName : String := ""
  STLMaximumNumberOfDisplayableCharactersInAnyTextRow : Option Int := none
  STLMaximumNumberOfDisplayableRows : Option Int := none
  STLOriginalEpisodeTitle : String := ""
  STLPublisher : String := ""
  STLRevisionDate : Option GoTime := none
  STLRevisionNumber : Int := 0
  STLSubtitleListReferenceCode : String := ""
  STLTimecodeStartOfProgramme : GoDuration := 0
  STLTranslatedEpisodeTitle : String := ""
  STLTranslatedProgramTitle : String := ""
  STLTranslatorContactDetails : String := ""
  STLTranslatorName : String := ""
  Title : String := ""
  TTMLCopyright : String := ""

/-- `Subtitles` (`subtitles.go`): the document root.  Go's
`map[string]*Region` / `map[string]*Style` are modelled as association
lists keyed by ID. -/
structure Subtitles where
  Items : List Item := []
  Metadata : Option Metadata := none
  Regions : List (String × Region) := []
  Styles : List (String × Style) := []

/-- The item-list transformation of `(*Subtitles).Add`
(`subtitles.go`): each boundary is shifted by `d`; an item whose
shifted `EndAt` and `StartAt` are both `≤ 0` is removed; a remaining
item whose shifted `StartAt` is `≤ 0` is clamped to `StartAt = 0`.
The Go index loop with in-place removal (`idx--` after deletion)
visits every item once in order, which is this recursion. -/
def addItems (d : GoDuration) : List Item → List Item
  | [] => []
  | i :: rest =>
    let i' := { i with EndAt := i.EndAt + d, StartAt := i.StartAt + d }
    if i'.EndAt ≤ 0 ∧ i'.StartAt ≤ 0 then addItems d rest
    else if i'.StartAt ≤ 0 then { i' with StartAt := 0 } :: addItems d rest
    else i' :: addItems d rest

/-- `(*Subtitles).Add` (`subtitles.go`). -/
def Subtitles.Add (s : Subtitles) (d : GoDuration) : Subtitles :=
  { s with Items := addItems d s.Items }

end Astisub

/-! ## C5 / C9: the `Add` operation -/

namespace Astisub

/-- C5 counterexample: `Add(-2s)` on an item with `StartAt = 1s,
EndAt = 3s` does *not* remove it — the shifted `EndAt` is `1s > 0`, so
only both-nonpositive items are removed; the item is kept with its
start clamped to `0`. -/
theorem c5_add_concrete_counterexample :
    (Subtitles.Add { Items := [{ StartAt := sec, EndAt := 3 * sec }] } (-(2 * sec))).Items
        = [{ StartAt := 0, EndAt := sec }]
      ∧ ([{ StartAt := 0, EndAt := sec }] : List Item) ≠ [] := by
  constructor
  · norm_num [Subtitles.Add, addItems, sec]
  · simp

/-- C5 (amended): `Add(-2s)` on an item with `StartAt = 1s, EndAt = 3s`
clamps it to `StartAt = 0s, EndAt = 1s` (the shifted start is `≤ 0` but
the shifted end is still positive, so the item is kept; it would only
be removed if both shifted bounds were `≤ 0`, as for `StartAt = 1s,
EndAt = 2s`); on an item with `StartAt = 3s, EndAt = 7s` it yields
`StartAt = 1s, EndAt = 5s`. -/
theorem c5_add_concrete :
    (Subtitles.Add { Items := [{ StartAt := sec, EndAt := 3 * sec }] } (-(2 * sec))).Items
        = [{ StartAt := 0, EndAt := sec }]
      ∧ (Subtitles.Add { Items := [{ StartAt := sec, EndAt := 2 * sec }] }
          (-(2 * sec))).Items = []
      ∧ (Subtitles.Add { Items := [{ StartAt := 3 * sec, EndAt := 7 * sec }] }
          (-(2 * sec))).Items
        = [{ StartAt := sec, EndAt := 5 * sec }] := by
  refine ⟨?_, ?_, ?_⟩ <;> norm_num [Subtitles.Add, addItems, sec]

/-- The per-item effect of `Add` as the claim states it: an item is
dropped exactly when both shifted bounds are `≤ 0`; a kept item whose
shifted `StartAt` is `≤ 0` has it clamped to `0`. -/
def addSpecFn (d : GoDuration) (i : Item) : Option Item :=
  if i.EndAt + d ≤ 0 ∧ i.StartAt + d ≤ 0 then none
  else some { i with
    EndAt := i.EndAt + d
    StartAt := if i.StartAt + d ≤ 0 then 0 else i.StartAt + d }

/-- C9: after `Add d`, an item is removed exactly when both its shifted
bounds are `≤ 0`, a kept item with shifted `StartAt ≤ 0` is clamped to
`0` (`filterMap addSpecFn` characterization), and consequently every
remaining item has `StartAt ≥ 0`. -/
theorem c9_add_removal_and_clamping (s : Subtitles) (d : GoDuration) :
    (s.Add d).Items = s.Items.filterMap (addSpecFn d)
      ∧ ∀ j ∈ (s.Add d).Items, 0 ≤ j.StartAt := by
  have h : ∀ l : List Item, addItems d l = l.filterMap (addSpecFn d) := by
    intro l
    induction l with
    | nil => rfl
    | cons i rest ih =>
      simp only [addItems, addSpecFn, List.filterMap_cons]
      split_ifs with h1 h2 <;> simp [ih]
  have h2 : ∀ l : List Item, ∀ j ∈ addItems d l, 0 ≤ j.StartAt := by
    intro l
    induction l with
    | nil => intro j hj; simp [addItems] at hj
    | cons i rest ih =>
      intro j hj
      simp only [addItems] at hj
      split_ifs at hj with hb hs
      · exact ih j hj
      · rcases List.mem_cons.1 hj with h | h
        · subst h; simp
        · exact ih j h
      · rcases List.mem_cons.1 hj with h | h
        · subst h
          simp only [not_and, not_le] at hb hs
          exact le_of_lt hs
        · exact ih j h
  exact ⟨h s.Items, h2 s.Items⟩

/-- Witness for C9: evaluated on a two-item document shifted by `-2s`:
the first item is dropped and the second clamped to start at `0`. -/
theorem c9_add_removal_and_clamping_witness :
    (Subtitles.Add
        { Items := [{ StartAt := sec, EndAt := 3 * sec },
                    { StartAt := sec, EndAt := 9 * sec }] } (-(2 * sec))).Items
      = List.filterMap (addSpecFn (-(2 * sec)))
          [{ StartAt := sec, EndAt := 3 * sec }, { StartAt := sec, EndAt := 9 * sec }] :=
  (c9_add_removal_and_clamping
    { Items := [{ StartAt := sec, EndAt := 3 * sec },
                { StartAt := sec, EndAt := 9 * sec }] } (-(2 * sec))).1

end Astisub

/-! ## C6: the `Order` operation -/

namespace Astisub

/-- The postcondition Go's `sort.Slice` guarantees for `Order`'s
comparison: the items are in non-decreasing `StartAt` order. -/
def sortedByStartAt (l : List Item) : Prop :=
  l.Pairwise (fun a b => a.StartAt ≤ b.StartAt)

/-- `(*Subtitles).Order` (`subtitles.go`) sorts `s.Items` in place with
Go's `sort.Slice` and the comparison
`s.Items[i].StartAt < s.Items[j].StartAt`.  `sort.Slice` is Go
standard-library code; its documented contract is that the result is a
permutation of the input that is ordered for the comparison, and that
the sort is *not* guaranteed to be stable.  `Order` is therefore
modelled as the relation between the input item list and the admissible
output lists.  (The `len(s.Items) <= 1` early return is consistent:
such a list is its own unique sorted permutation.) -/
def OrderRel (input out : List Item) : Prop :=
  input.Perm out ∧ sortedByStartAt out

/-- A one-line cue with the given text, used as a counterexample
item. -/
def plainTextItem (t : String) : Item :=
  { Lines := [{ Items := [{ Text := t }] }] }

/-- C6 counterexample: for two items with equal `StartAt` (here both
`0`), both the input order and the swapped order are admissible results
of `Order` under `sort.Slice`'s contract, and they differ — so neither
stability (`[b, a]` does not retain the input's relative order) nor
`Order(); Order() = Order()` (a second run on the output `[a, b]` may
yield `[b, a]`) is guaranteed. -/
theorem c6_order_counterexample :
    OrderRel [plainTextItem "a", plainTextItem "b"] [plainTextItem "a", plainTextItem "b"]
      ∧ OrderRel [plainTextItem "a", plainTextItem "b"]
          [plainTextItem "b", plainTextItem "a"]
      ∧ [plainTextItem "b", plainTextItem "a"] ≠ [plainTextItem "a", plainTextItem "b"] := by
  have hne : plainTextItem "b" ≠ plainTextItem "a" := by
    intro h
    have := congrArg (fun i : Item => ((i.Lines.headD {}).Items.headD {}).Text) h
    simp [plainTextItem] at this
  refine ⟨⟨List.Perm.refl _, ?_⟩, ⟨List.Perm.swap _ _ _, ?_⟩, ?_⟩
  · simp [sortedByStartAt, plainTextItem]
  · simp [sortedByStartAt, plainTextItem]
  · intro h
    rw [List.cons.injEq] at h
    exact hne h.1

/-- Pairwise-distinct `StartAt` values. -/
def distinctStartAts (l : List Item) : Prop :=
  l.Pairwise (fun a b => a.StartAt ≠ b.StartAt)

/-- A sorted permutation of a distinct-keys list is unique. -/
theorem orderRel_unique (l out1 out2 : List Item) (h1 : OrderRel l out1)
    (h2 : OrderRel l out2) (hd : distinctStartAts l) : out1 = out2 := by
  haveI : IsAntisymm Item (fun a b : Item => a.StartAt < b.StartAt) :=
    ⟨fun a b hab hba => absurd (lt_trans hab hba) (lt_irrefl _)⟩
  have hd1 : distinctStartAts out1 := (h1.1.pairwise_iff (fun h => Ne.symm h)).1 hd
  have hd2 : distinctStartAts out2 := (h2.1.pairwise_iff (fun h => Ne.symm h)).1 hd
  have hs1 : out1.Pairwise (fun a b : Item => a.StartAt < b.StartAt) :=
    (h1.2.and hd1).imp fun hab => lt_of_le_of_ne hab.1 hab.2
  have hs2 : out2.Pairwise (fun a b : Item => a.StartAt < b.StartAt) :=
    (h2.2.and hd2).imp fun hab => lt_of_le_of_ne hab.1 hab.2
  exact List.eq_of_perm_of_sorted (h1.1.symm.trans h2.1) hs1 hs2

/-- C6 (amended): `Order` always produces a permutation of the items
that is non-decreasing in `StartAt`; when the items' `StartAt` values
are pairwise distinct this permutation is unique, so `Order` is then
deterministic and a second `Order` returns the first result unchanged.
With equal start times neither stability nor idempotence is guaranteed
(`sort.Slice` is documented unstable), per the counterexample. -/
theorem c6_order_distinct_deterministic_idempotent (l out1 out2 : List Item)
    (hd : distinctStartAts l) :
    (OrderRel l out1 → OrderRel l out2 → out1 = out2)
      ∧ (OrderRel l out1 → OrderRel out1 out2 → out2 = out1) := by
  constructor
  · intro h1 h2
    exact orderRel_unique l out1 out2 h1 h2 hd
  · intro h1 h2
    have hd1 : distinctStartAts out1 := (h1.1.pairwise_iff (fun h => Ne.symm h)).1 hd
    exact orderRel_unique out1 out2 out1 h2 ⟨List.Perm.refl _, h1.2⟩ hd1

/-- Witness for C6 (amended): two items with distinct starts `1s` and
`0`; `[i1s, i0] → [i0, i1s]` is an admissible `Order` outcome, and both
conjuncts apply. -/
theorem c6_order_distinct_witness :
    ([{ StartAt := 0 }, { StartAt := sec }] : List Item)
      = ([{ StartAt := 0 }, { StartAt := sec }] : List Item) := by
  have hd : distinctStartAts ([{ StartAt := sec }, { StartAt := 0 }] : List Item) := by
    simp [distinctStartAts, sec]
  have hrel : OrderRel ([{ StartAt := sec }, { StartAt := 0 }] : List Item)
      ([{ StartAt := 0 }, { StartAt := sec }] : List Item) := by
    refine ⟨List.Perm.swap _ _ _, ?_⟩
    simp [sortedByStartAt, sec]
  exact (c6_order_distinct_deterministic_idempotent
    ([{ StartAt := sec }, { StartAt := 0 }] : List Item)
    ([{ StartAt := 0 }, { StartAt := sec }] : List Item)
    ([{ StartAt := 0 }, { StartAt := sec }] : List Item) hd).1 hrel hrel

end Astisub

/-! ## C10: the `Unfragment` operation -/

namespace Astisub

/-- The inner loop of `(*Subtitles).Unfragment` (`subtitles.go`) for a
fixed earlier item `cur = s.Items[i]`, scanning the later items: a
later item with the same rendered text whose start is not after `cur`'s
(current) end is merged into `cur` (removing it, and extending `cur`'s
end only if the later end is larger); scanning stops at the first later
item starting strictly after `cur`'s end; any other item is kept and
scanning continues.  Returns the updated `cur` and the remaining later
items. -/
def unfragInner (cur : Item) : List Item → Item × List Item
  | [] => (cur, [])
  | x :: rest =>
    if cur.string = x.string ∧ cur.EndAt ≥ x.StartAt then
      unfragInner (if cur.EndAt < x.EndAt then { cur with EndAt := x.EndAt } else cur) rest
    else if cur.EndAt < x.StartAt then (cur, x :: rest)
    else
      let p := unfragInner cur rest
      (p.1, x :: p.2)

/-- The inner loop never lengthens the tail. -/
theorem unfragInner_length (cur : Item) (l : List Item) :
    (unfragInner cur l).2.length ≤ l.length := by
  induction l generalizing cur with
  | nil => simp [unfragInner]
  | cons x rest ih =>
    simp only [unfragInner]
    split_ifs
    · exact Nat.le_trans (ih _) (Nat.le_succ _)
    · exact Nat.le_trans (ih _) (Nat.le_succ _)
    · exact Nat.le_refl _
    · simp only [List.length_cons]
      exact Nat.succ_le_succ (ih cur)

/-- The outer loop of `Unfragment`: each position in turn plays the
role of the earlier item (the Go loop `for i := 0; i < len-1; i++` over
the shrinking slice). -/
def unfragOuter : List Item → List Item
  | [] => []
  | i :: rest =>
    let p := unfragInner i rest
    p.1 :: unfragOuter p.2
termination_by l => l.length
decreasing_by
  simp only [List.length_cons]
  exact Nat.lt_succ_of_le (unfragInner_length i rest)

/-- `(*Subtitles).Unfragment` (`subtitles.go`): nothing to do for at
most one item; otherwise `Order` (modelled relationally, see
`OrderRel`) followed by the merge loop. -/
def Subtitles.UnfragmentRel (s : Subtitles) (out : List Item) : Prop :=
  if s.Items.length ≤ 1 then out = s.Items
  else ∃ mid, OrderRel s.Items mid ∧ out = unfragOuter mid

/-- The outer loop never increases the number of items. -/
theorem unfragOuter_length (l : List Item) : (unfragOuter l).length ≤ l.length := by
  suffices h : ∀ (n : Nat) (l : List Item), l.length ≤ n → (unfragOuter l).length ≤ l.length
    from h l.length l (Nat.le_refl _)
  intro n
  induction n with
  | zero =>
    intro l hl
    rw [List.length_eq_zero.1 (Nat.le_zero.1 hl)]
    simp [unfragOuter]
  | succ n ih =>
    intro l hl
    cases l with
    | nil => simp [unfragOuter]
    | cons i rest =>
      simp only [unfragOuter, List.length_cons]
      have h1 := unfragInner_length i rest
      have h2 := ih (unfragInner i rest).2 (by simp at hl; omega)
      omega

/-- C10: after the initial ordering, a later item is merged into the
earlier (current) one exactly when both render the same text and the
earlier item's current `EndAt` is `≥` the later item's `StartAt`; the
merge keeps the larger of the two `EndAt` values; any admissible
`Unfragment` result has at most as many items as the input. -/
theorem c10_unfragment_merge_and_length :
    (∀ (cur x : Item) (rest : List Item), cur.string = x.string → x.StartAt ≤ cur.EndAt →
        unfragInner cur (x :: rest)
          = unfragInner { cur with EndAt := max cur.EndAt x.EndAt } rest)
      ∧ (∀ (cur x : Item) (rest : List Item),
          ¬(cur.string = x.string ∧ x.StartAt ≤ cur.EndAt) →
          unfragInner cur (x :: rest)
            = if cur.EndAt < x.StartAt then (cur, x :: rest)
              else ((unfragInner cur rest).1, x :: (unfragInner cur rest).2))
      ∧ ∀ (s : Subtitles) (out : List Item),
          s.UnfragmentRel out → out.length ≤ s.Items.length := by
  refine ⟨?_, ?_, ?_⟩
  · intro cur x rest hs ht
    simp only [unfragInner, ge_iff_le, if_pos (And.intro hs ht)]
    rcases lt_or_ge cur.EndAt x.EndAt with h | h
    · rw [if_pos h, max_eq_right (le_of_lt h)]
    · rw [if_neg (not_lt.2 h), max_eq_left h]
  · intro cur x rest hn
    simp only [unfragInner, ge_iff_le, if_neg hn]
  · intro s out h
    simp only [Subtitles.UnfragmentRel] at h
    split_ifs at h with hlen
    · simp [h]
    · rcases h with ⟨mid, hmid, rfl⟩
      calc (unfragOuter mid).length ≤ mid.length := unfragOuter_length mid
        _ = s.Items.length := (hmid.1.length_eq).symm

/-- Witness for C10: the merge equation evaluated on two overlapping
cues with the same text (`[0,2s]` and `[1s,3s]`): the second is merged
and the first keeps the larger end `3s`. -/
theorem c10_unfragment_merge_and_length_witness :
    unfragInner { StartAt := 0, EndAt := 2 * sec, Lines := [{ Items := [{ Text := "x" }] }] }
        [{ StartAt := sec, EndAt := 3 * sec, Lines := [{ Items := [{ Text := "x" }] }] }]
      = unfragInner
          { StartAt := 0,
            EndAt := max (2 * sec) (3 * sec),
            Lines := [{ Items := [{ Text := "x" }] }] } [] :=
  c10_unfragment_merge_and_length.1
    { StartAt := 0, EndAt := 2 * sec, Lines := [{ Items := [{ Text := "x" }] }] }
    { StartAt := sec, EndAt := 3 * sec, Lines := [{ Items := [{ Text := "x" }] }] }
    [] rfl (by norm_num [sec])

end Astisub

/-! ## Duration codec (`subtitles.go`) -/

namespace Astisub

/-- Go `unicode.IsSpace` as used by `strings.TrimSpace`; modelled by
`Char.isWhitespace` (space, tab, carriage return, line feed — Go also
strips a few rarer Unicode space characters, none of which occur in
any theorem's domain). -/
def goIsSpace (c : Char) : Bool := c.isWhitespace

/-- Go `strings.TrimSpace`. -/
def goTrimSpace (s : String) : String :=
  ⟨((s.toList.dropWhile goIsSpace).reverse.dropWhile goIsSpace).reverse⟩

/-- The decimal digit character for `n ≤ 9`. -/
def digitChar (n : Nat) : Char := Char.ofNat (48 + n)

/-- The decimal digits of a natural number, most significant first. -/
def natDigits (n : Nat) : List Char :=
  if h : n < 10 then [digitChar n]
  else natDigits (n / 10) ++ [digitChar (n % 10)]
termination_by n
decreasing_by
  exact Nat.div_lt_self (by omega) (by norm_num)

/-- Go `strconv.Itoa` (also the `%d` verb of `fmt`): decimal rendering
of an integer. -/
def goItoa (n : Int) : String :=
  if n < 0 then "-" ++ ⟨natDigits (-n).toNat⟩ else ⟨natDigits n.toNat⟩

/-- Go `int(math.Pow10(e))`: `10^e` for `0 ≤ e ≤ 15` (exact in a
float64), and `0` for negative `e` (the fractional power truncates to
zero). -/
def goPow10Int (e : Int) : Int :=
  if e < 0 then 0 else 10 ^ e.toNat

/-- Go `a % b` (truncated remainder) on ints. -/
def goMod (a b : Int) : Int := Int.tmod a b

/-- Left-pad with `'0'` to width `w` (the shape of a zero-padded
fixed-width decimal field). -/
def padZeros (s : String) (w : Nat) : String :=
  ⟨List.replicate (w - s.toList.length) '0' ++ s.toList⟩

/-- `fmt.Sprintf("%."+strconv.Itoa(n)+"f", float64(msv)/1000)[2:]` for
`0 ≤ msv ≤ 999` — the fractional field of `formatDuration`: the
millisecond count rendered as `n` correctly-rounded decimal digits.
Rounding ties (possible only for `n ≤ 2`) follow the binary float64 in
Go and round-half-even here; no theorem in this file depends on a tie.
A rounding carry into the units digit (e.g. `999` at width 2 gives
`"1.00"`) loses its leading `"1."` to the `[2:]` byte-slice, hence the
`rounded - 10^N` branch.  For `n ≤ 0` the Go code panics on the
byte-slice (`"%.0f"` yields no decimal point); no package caller uses
`n ≤ 0`, and the model returns `""` there.  Negative durations (whose
sign would shift the `[2:]` slice) are likewise outside every caller's
and theorem's domain. -/
def goFormatFrac (msv : Int) (n : Int) : String :=
  if n ≤ 0 then ""
  else
    let N := n.toNat
    let num := msv * (10 : Int) ^ N
    let q := goDiv num 1000
    let r := goMod num 1000
    let rounded :=
      if 2 * r > 1000 then q + 1
      else if 2 * r < 1000 then q
      else if goMod q 2 = 0 then q else q + 1
    let v := if rounded ≥ 10 ^ N then rounded - 10 ^ N else rounded
    padZeros (goItoa v) N

/-- `formatDuration` (`subtitles.go`): renders a duration as
`HH:MM:SS<sep>FFF` with two-digit-zero-padded hours/minutes/seconds and
a `numberOfMillisecondDigits`-digit fractional field. -/
def formatDuration (i : GoDuration) (millisecondSep : String)
    (numberOfMillisecondDigits : Int) : String :=
  -- Parse hours
  let hours := goDiv i hour
  let s := (if hours < 10 then "0" else "") ++ goItoa hours ++ ":"
  -- Parse minutes
  let minutes := goDiv (goMod i hour) minute
  let s := s ++ (if minutes < 10 then "0" else "") ++ goItoa minutes ++ ":"
  -- Parse seconds
  let seconds := goDiv (goMod i minute) sec
  let s := s ++ (if seconds < 10 then "0" else "") ++ goItoa seconds ++ millisecondSep
  -- Parse milliseconds
  let milliseconds := goDiv (goMod i sec) msec
  s ++ goFormatFrac milliseconds numberOfMillisecondDigits

/-- `parseDuration` (`subtitles.go`): parses `"00:00:00.000"`,
`"00:00:00,000"` or `"0:00:00:00"`-style durations.  An optional final
separator-delimited field of at most 3 digits is scaled by
`10^(numberOfMillisecondDigits - len(field))` into milliseconds; the
rest must be `MM:SS` or `HH:MM:SS`. -/
def parseDuration (i millisecondSep : String)
    (numberOfMillisecondDigits : Int) : Option GoDuration :=
  -- Split milliseconds
  let parts := goSplit i millisecondSep
  let msAndRest : Option (Int × String) :=
    if parts.length ≥ 2 then
      let s := goTrimSpace (parts.getLast!)
      -- Invalid number of millisecond digits
      if s.toList.length > 3 then none
      else
        -- Parse milliseconds
        match goAtoi s with
        | none => none
        | some m =>
          some (m * goPow10Int (numberOfMillisecondDigits - s.toList.length),
                goJoin parts.dropLast millisecondSep)
    else some (0, i)
  match msAndRest with
  | none => none
  | some (milliseconds, s) =>
    -- Split hours, minutes and seconds
    let parts := goSplit (goTrimSpace s) ":"
    let hms : Option (String × String × String) :=
      if parts.length = 2 then some ("", parts[0]!, parts[1]!)
      else if parts.length = 3 then some (parts[0]!, parts[1]!, parts[2]!)
      else none
    match hms with
    | none => none
    | some (partHours, partMinutes, partSeconds) =>
      match goAtoi (goTrimSpace partSeconds) with
      | none => none
      | some seconds =>
        match goAtoi (goTrimSpace partMinutes) with
        | none => none
        | some minutes =>
          let hoursRes : Option Int :=
            if partHours.toList.length > 0 then goAtoi (goTrimSpace partHours)
            else some 0
          match hoursRes with
          | none => none
          | some hours =>
            some (milliseconds * msec + seconds * sec + minutes * minute + hours * hour)

end Astisub
namespace Astisub

theorem digitChar_isDigit {k : Nat} (hk : k < 10) : (digitChar k).isDigit = true := by
  interval_cases k <;> decide

theorem digitChar_toNat {k : Nat} (hk : k < 10) : (digitChar k).toNat = 48 + k := by
  interval_cases k <;> decide

theorem natDigits_ne_nil {n : Nat} : natDigits n ≠ [] := by
  rw [natDigits]
  split_ifs <;> simp

theorem natDigits_isDigit {n : Nat} : ∀ c ∈ natDigits n, c.isDigit = true := by
  induction n using natDigits.induct with
  | case1 n h =>
    intro c hc
    rw [natDigits, dif_pos h] at hc
    simp only [List.mem_singleton] at hc
    subst hc
    exact digitChar_isDigit h
  | case2 n h ih =>
    intro c hc
    rw [natDigits, dif_neg h] at hc
    rcases List.mem_append.1 hc with h1 | h1
    · exact ih c h1
    · simp only [List.mem_singleton] at h1
      subst h1
      exact digitChar_isDigit (Nat.mod_lt _ (by norm_num))

theorem digitsToNat_append_digits {n : Nat} (acc : Nat) :
    (natDigits n).foldl (fun a c => a * 10 + (c.toNat - 48)) acc
      = acc * 10 ^ (natDigits n).length + n := by
  induction n using natDigits.induct generalizing acc with
  | case1 n h =>
    rw [natDigits, dif_pos h]
    simp [digitChar_toNat h]
  | case2 n h ih =>
    rw [natDigits, dif_neg h]
    rw [List.foldl_append, ih]
    simp only [List.foldl_cons, List.foldl_nil, List.length_append, List.length_singleton]
    rw [digitChar_toNat (Nat.mod_lt _ (by norm_num))]
    ring_nf
    omega

theorem natDigits_length_le {n k : Nat} (hk : 1 ≤ k) (hn : n < 10 ^ k) :
    (natDigits n).length ≤ k := by
  induction n using natDigits.induct generalizing k with
  | case1 n h =>
    rw [natDigits, dif_pos h]
    simpa using hk
  | case2 n h ih =>
    rw [natDigits, dif_neg h]
    simp only [List.length_append, List.length_singleton]
    have hk2 : 2 ≤ k := by
      by_contra hc
      have : k = 1 := by omega
      subst this
      simp at hn
      omega
    have hdiv : n / 10 < 10 ^ (k - 1) := by
      have h10 : (10 : Nat) ^ k = 10 * 10 ^ (k - 1) := by
        conv_lhs => rw [show k = 1 + (k - 1) by omega]
        rw [pow_add, pow_one]
      apply Nat.div_lt_of_lt_mul
      omega
    have := ih (by omega) hdiv
    omega

theorem foldl_replicate_zero (z : Nat) :
    (List.replicate z '0').foldl (fun a c => a * 10 + (c.toNat - 48)) 0 = 0 := by
  induction z with
  | zero => rfl
  | succ z ih => simpa [List.replicate_succ] using ih

theorem goAtoi_zeros_natDigits (z n : Nat) :
    goAtoi ⟨List.replicate z '0' ++ natDigits n⟩ = some (n : Int) := by
  have hall : (List.replicate z '0' ++ natDigits n).all Char.isDigit = true := by
    rw [List.all_eq_true]
    intro c hc
    rcases List.mem_append.1 hc with h1 | h1
    · rw [List.eq_of_mem_replicate h1]; decide
    · exact natDigits_isDigit c h1
  have hne : List.replicate z '0' ++ natDigits n ≠ [] := by
    simp [natDigits_ne_nil]
  rcases hL : List.replicate z '0' ++ natDigits n with _ | ⟨c, rest⟩
  · exact absurd hL hne
  · have hcdig : c.isDigit = true := by
      rw [hL] at hall
      rw [List.all_eq_true] at hall
      exact hall c (by simp)
    have hcm : c ≠ '-' := by intro h; subst h; simp [Char.isDigit] at hcdig
    have hcp : c ≠ '+' := by intro h; subst h; exact absurd hcdig (by decide)
    simp only [goAtoi, String.toList, hL]
    rw [if_neg hcm, if_neg hcp]
    simp only [List.isEmpty_cons, if_false]
    rw [← hL, hall]
    norm_num [digitsToNat]
    rw [foldl_replicate_zero, digitsToNat_append_digits 0]
    simp

theorem isPrefixOf_single {c x : Char} {xs : List Char} :
    [c].isPrefixOf (x :: xs) = (c == x) := by
  simp [List.isPrefixOf]

theorem findSubIdx_single_none {c : Char} {s : List Char} (h : c ∉ s) :
    findSubIdx [c] s = none := by
  induction s with
  | nil => simp [findSubIdx]
  | cons x rest ih =>
    have hcx : ¬(c == x) = true := by
      simp only [beq_iff_eq]
      intro hc; subst hc; exact h (by simp)
    rw [findSubIdx, isPrefixOf_single]
    rw [if_neg hcx, ih (fun hm => h (List.mem_cons_of_mem _ hm))]
    rfl

theorem findSubIdx_single_append {c : Char} {A B : List Char} (h : c ∉ A) :
    findSubIdx [c] (A ++ c :: B) = some A.length := by
  induction A with
  | nil => simp [findSubIdx, isPrefixOf_single]
  | cons x rest ih =>
    have hcx : ¬(c == x) = true := by
      simp only [beq_iff_eq]
      intro hc; subst hc; exact h (by simp)
    rw [List.cons_append, findSubIdx, isPrefixOf_single, if_neg hcx,
      ih (fun hm => h (List.mem_cons_of_mem _ hm))]
    rfl

theorem goSplitCore_single_none {c : Char} {s : List Char} (h : c ∉ s) :
    goSplitCore c [] s = [s] := by
  rw [goSplitCore, findSubIdx_single_none h]

theorem goSplitCore_single_append {c : Char} {A B : List Char} (h : c ∉ A) :
    goSplitCore c [] (A ++ c :: B) = A :: goSplitCore c [] B := by
  rw [goSplitCore]
  split
  · rename_i hnone
    rw [findSubIdx_single_append h] at hnone
    exact absurd hnone (by simp)
  · rename_i i hsome
    rw [findSubIdx_single_append h] at hsome
    have hi : i = A.length := by
      have := Option.some.inj hsome
      omega
    subst hi
    congr 1
    · exact List.take_left A (c :: B)
    · congr 1
      have h1 : A.length + [c].length = (A ++ [c]).length := by simp
      rw [h1, show A ++ c :: B = (A ++ [c]) ++ B by simp, List.drop_left]

theorem digit_not_space {ch : Char} (h : ch.isDigit = true) : goIsSpace ch = false := by
  by_contra hs
  have hs' : ch.isWhitespace = true := by
    simpa [goIsSpace] using hs
  simp only [Char.isWhitespace, Bool.or_eq_true, decide_eq_true_eq] at hs'
  rcases hs' with ((h1 | h1) | h1) | h1 <;> (subst h1; simp [Char.isDigit] at h)

theorem dropWhile_all_false {p : Char → Bool} {l : List Char}
    (h : ∀ ch ∈ l, p ch = false) : l.dropWhile p = l := by
  cases l with
  | nil => rfl
  | cons x xs =>
    rw [List.dropWhile_cons, if_neg]
    simp [h x (by simp)]

theorem goTrimSpace_id {l : List Char} (h : ∀ ch ∈ l, goIsSpace ch = false) :
    goTrimSpace ⟨l⟩ = ⟨l⟩ := by
  simp only [goTrimSpace]
  rw [show (⟨l⟩ : String).toList = l from rfl]
  rw [dropWhile_all_false h, dropWhile_all_false (fun ch hc => h ch (List.mem_reverse.1 hc)),
    List.reverse_reverse]

theorem goItoa_nonneg (v : Int) (hv : 0 ≤ v) : goItoa v = ⟨natDigits v.toNat⟩ := by
  simp [goItoa, not_lt.2 hv]

theorem goFormatFrac_three {msv : Int} (h0 : 0 ≤ msv) (h1 : msv < 1000) :
    goFormatFrac msv 3
      = ⟨List.replicate (3 - (natDigits msv.toNat).length) '0' ++ natDigits msv.toNat⟩ := by
  rw [goFormatFrac, if_neg (by norm_num)]
  have h3 : (3 : Int).toNat = 3 := rfl
  simp only [h3]
  have hnum : msv * (10 : Int) ^ (3 : Nat) = msv * 1000 := by norm_num
  rw [hnum]
  have hq : goDiv (msv * 1000) 1000 = msv := Int.mul_tdiv_cancel msv (by norm_num)
  have hr : goMod (msv * 1000) 1000 = 0 := Int.mul_tmod_left msv 1000
  rw [hq, hr]
  have hp : ((10 : Int) ^ (3 : Nat)) = 1000 := by norm_num
  rw [hp]
  split_ifs <;> first
    | (rw [padZeros, goItoa_nonneg msv h0]; rfl)
    | omega

theorem goSplit_single {c : Char} {A B : List Char} (hA : c ∉ A) (hB : c ∉ B) :
    goSplit ⟨A ++ c :: B⟩ (String.singleton c) = [⟨A⟩, ⟨B⟩] := by
  show (goSplitCore c [] (A ++ c :: B)).map (fun l => String.mk l) = [String.mk A, String.mk B]
  rw [goSplitCore_single_append hA, goSplitCore_single_none hB]
  rfl

theorem goSplit_colon3 {A B C : List Char} (hA : ':' ∉ A) (hB : ':' ∉ B) (hC : ':' ∉ C) :
    goSplit ⟨A ++ ':' :: (B ++ ':' :: C)⟩ ":" = [⟨A⟩, ⟨B⟩, ⟨C⟩] := by
  show (goSplitCore ':' [] (A ++ ':' :: (B ++ ':' :: C))).map (fun l => String.mk l)
      = [String.mk A, String.mk B, String.mk C]
  rw [goSplitCore_single_append hA, goSplitCore_single_append hB, goSplitCore_single_none hC]
  rfl

/-- The character list of a two-digit zero-padded field. -/
def pad2list (v : Int) : List Char :=
  (if v < 10 then ['0'] else []) ++ natDigits v.toNat

theorem pad2list_digits {v : Int} : ∀ ch ∈ pad2list v, ch.isDigit = true := by
  intro ch hc
  rcases List.mem_append.1 hc with h1 | h1
  · split_ifs at h1 <;> simp at h1
    subst h1; decide
  · exact natDigits_isDigit ch h1

theorem pad2_toList (v : Int) (hv : 0 ≤ v) :
    ((if v < 10 then "0" else "") ++ goItoa v).toList = pad2list v := by
  rw [goItoa_nonneg v hv, pad2list]
  split_ifs <;> rfl

theorem goAtoi_pad2list (v : Int) (hv : 0 ≤ v) : goAtoi ⟨pad2list v⟩ = some v := by
  rw [pad2list]
  split_ifs with h
  · have := goAtoi_zeros_natDigits 1 v.toNat
    simpa [Int.toNat_of_nonneg hv] using this
  · have := goAtoi_zeros_natDigits 0 v.toNat
    simpa [Int.toNat_of_nonneg hv] using this

theorem pad2list_ne_nil (v : Int) : pad2list v ≠ [] := by
  rw [pad2list]
  split_ifs <;> simp [natDigits_ne_nil]

theorem formatDuration_eq_mk (d : GoDuration) (hd : 0 ≤ d) (sepStr : String) :
    formatDuration d sepStr 3
      = ⟨(pad2list (goDiv d hour)
            ++ ':' :: (pad2list (goDiv (goMod d hour) minute)
            ++ ':' :: pad2list (goDiv (goMod d minute) sec)))
          ++ sepStr.toList
          ++ (List.replicate (3 - (natDigits (goDiv (goMod d sec) msec).toNat).length) '0'
              ++ natDigits (goDiv (goMod d sec) msec).toNat)⟩ := by
  have hHn : 0 ≤ goDiv d hour := Int.tdiv_nonneg hd (by norm_num [hour])
  have hMn : 0 ≤ goDiv (goMod d hour) minute :=
    Int.tdiv_nonneg (Int.tmod_nonneg _ hd) (by norm_num [minute])
  have hSn : 0 ≤ goDiv (goMod d minute) sec :=
    Int.tdiv_nonneg (Int.tmod_nonneg _ hd) (by norm_num [sec])
  have hMSn : 0 ≤ goDiv (goMod d sec) msec :=
    Int.tdiv_nonneg (Int.tmod_nonneg _ hd) (by norm_num [msec])
  have hMSlt : goDiv (goMod d sec) msec < 1000 := by
    have h1 : goMod d sec < sec := Int.tmod_lt_of_pos d (by norm_num [sec])
    have h2 : goDiv (goMod d sec) msec = (goMod d sec) / msec :=
      Int.tdiv_eq_ediv (Int.tmod_nonneg _ hd) (by norm_num [msec])
    rw [h2]
    rw [Int.ediv_lt_iff_lt_mul (by norm_num [msec])]
    norm_num [sec, msec] at h1 ⊢
    omega
  have hifd : ∀ (P : Prop) [Decidable P], (if P then "0" else "").data = if P then ['0'] else [] := by
    intro P hP
    split_ifs <;> rfl
  have hdata : ∀ (v : Int), 0 ≤ v → (goItoa v).data = natDigits v.toNat := by
    intro v hv
    rw [goItoa_nonneg v hv]
  apply String.ext
  simp only [formatDuration, String.data_append, hifd, hdata _ hHn, hdata _ hMn, hdata _ hSn,
    goFormatFrac_three hMSn hMSlt, pad2list]
  simp [List.append_assoc, String.toList]

theorem parseDuration_decomposed (c : Char) (hdig : c.isDigit = false) (hcolon : c ≠ ':')
    (H M S MS : Int) (hH : 0 ≤ H) (hM : 0 ≤ M) (hS : 0 ≤ S)
    (hMS0 : 0 ≤ MS) (hMSlt : MS < 1000) :
    parseDuration
      ⟨(pad2list H ++ ':' :: (pad2list M ++ ':' :: pad2list S))
        ++ c :: (List.replicate (3 - (natDigits MS.toNat).length) '0' ++ natDigits MS.toNat)⟩
      (String.singleton c) 3
      = some (MS * msec + S * sec + M * minute + H * hour) := by
  have hPdig : ∀ ch ∈ pad2list H ++ ':' :: (pad2list M ++ ':' :: pad2list S),
      ch.isDigit = true ∨ ch = ':' := by
    intro ch hc
    rcases List.mem_append.1 hc with h1 | h1
    · exact Or.inl (pad2list_digits ch h1)
    · rcases List.mem_cons.1 h1 with h2 | h2
      · exact Or.inr h2
      · rcases List.mem_append.1 h2 with h3 | h3
        · exact Or.inl (pad2list_digits ch h3)
        · rcases List.mem_cons.1 h3 with h4 | h4
          · exact Or.inr h4
          · exact Or.inl (pad2list_digits ch h4)
  have hFdig : ∀ ch ∈ List.replicate (3 - (natDigits MS.toNat).length) '0'
      ++ natDigits MS.toNat, ch.isDigit = true := by
    intro ch hc
    rcases List.mem_append.1 hc with h1 | h1
    · rw [List.eq_of_mem_replicate h1]; decide
    · exact natDigits_isDigit ch h1
  have hcP : c ∉ pad2list H ++ ':' :: (pad2list M ++ ':' :: pad2list S) := by
    intro hc
    rcases hPdig c hc with h1 | h1
    · rw [hdig] at h1; exact Bool.false_ne_true h1
    · exact hcolon h1
  have hcF : c ∉ List.replicate (3 - (natDigits MS.toNat).length) '0'
      ++ natDigits MS.toNat := by
    intro hc
    exact absurd (hFdig c hc) (by simp [hdig])
  have hklen : (natDigits MS.toNat).length ≤ 3 := by
    apply natDigits_length_le (by norm_num)
    have : MS.toNat < 1000 := by omega
    simpa using this
  have hFlen : (List.replicate (3 - (natDigits MS.toNat).length) '0'
      ++ natDigits MS.toNat).length = 3 := by
    simp only [List.length_append, List.length_replicate]
    omega
  have hsplit := goSplit_single hcP hcF
  have htrimF := goTrimSpace_id (fun ch hc => digit_not_space (hFdig ch hc))
  have hatoiF : goAtoi ⟨List.replicate (3 - (natDigits MS.toNat).length) '0'
      ++ natDigits MS.toNat⟩ = some MS := by
    rw [goAtoi_zeros_natDigits, Int.toNat_of_nonneg hMS0]
  have htrimP : goTrimSpace ⟨pad2list H ++ ':' :: (pad2list M ++ ':' :: pad2list S)⟩
      = ⟨pad2list H ++ ':' :: (pad2list M ++ ':' :: pad2list S)⟩ := by
    apply goTrimSpace_id
    intro ch hc
    rcases hPdig ch hc with h1 | h1
    · exact digit_not_space h1
    · subst h1; decide
  have hnc : ∀ v : Int, (':' : Char) ∉ pad2list v := by
    intro v hc
    have := pad2list_digits _ hc
    simp at this
  have hsplitP : goSplit ⟨pad2list H ++ ':' :: (pad2list M ++ ':' :: pad2list S)⟩ ":"
      = [⟨pad2list H⟩, ⟨pad2list M⟩, ⟨pad2list S⟩] :=
    goSplit_colon3 (hnc H) (hnc M) (hnc S)
  have htr : ∀ v : Int, goTrimSpace ⟨pad2list v⟩ = ⟨pad2list v⟩ := fun v =>
    goTrimSpace_id (fun ch hc => digit_not_space (pad2list_digits ch hc))
  have hhlen : 0 < (pad2list H).length := by
    cases hp : pad2list H with
    | nil => exact absurd hp (pad2list_ne_nil H)
    | cons a l => simp
  have glast : ∀ x y : String, ([x, y] : List String).getLast! = y := fun _ _ => rfl
  have gdrop : ∀ x y : String, ([x, y] : List String).dropLast = [x] := fun _ _ => rfl
  have gjoin : ∀ (x sep : String), goJoin [x] sep = x := by
    intro x sep
    simp [goJoin, String.intercalate, String.intercalate.go]
  have g0 : ∀ x y z : String, ([x, y, z] : List String)[0]! = x := fun _ _ _ => rfl
  have g1 : ∀ x y z : String, ([x, y, z] : List String)[1]! = y := fun _ _ _ => rfl
  have g2 : ∀ x y z : String, ([x, y, z] : List String)[2]! = z := fun _ _ _ => rfl
  have gmk : ∀ l : List Char, (String.mk l).toList = l := fun _ => rfl
  simp only [parseDuration, hsplit, glast, gdrop, gjoin, g0, g1, g2, gmk, htrimF, hFlen,
    List.length_cons, List.length_nil, htrimP, hsplitP, htr, hatoiF]
  norm_num [hFlen, goPow10Int, hatoiF, goAtoi_pad2list _ hH, goAtoi_pad2list _ hM,
    goAtoi_pad2list _ hS, hhlen]
  rw [htrimP, hsplitP]
  simp only [g0, g1, g2]
  norm_num [hhlen]
  rw [htr S, htr M, htr H, goAtoi_pad2list S hS, goAtoi_pad2list M hM, goAtoi_pad2list H hH]

/-- C4 (amended): the duration round trip `parseDuration (formatDuration d sep n) sep n = some d`
holds when the fractional width `n` is 3, the separator is a single character that is neither a
decimal digit nor `':'`, and `d` is a non-negative whole number of milliseconds.  (For width 2 the
round trip fails: see the counterexample.) -/
theorem c4_roundtrip_w3 (d : GoDuration) (hd : 0 ≤ d) (hms : goMod d msec = 0)
    (c : Char) (hdig : c.isDigit = false) (hcolon : c ≠ ':') :
    parseDuration (formatDuration d (String.singleton c) 3) (String.singleton c) 3
      = some d := by
  have hHn : 0 ≤ goDiv d hour := Int.tdiv_nonneg hd (by norm_num [hour])
  have hMn : 0 ≤ goDiv (goMod d hour) minute :=
    Int.tdiv_nonneg (Int.tmod_nonneg _ hd) (by norm_num [minute])
  have hSn : 0 ≤ goDiv (goMod d minute) sec :=
    Int.tdiv_nonneg (Int.tmod_nonneg _ hd) (by norm_num [sec])
  have hMSn : 0 ≤ goDiv (goMod d sec) msec :=
    Int.tdiv_nonneg (Int.tmod_nonneg _ hd) (by norm_num [msec])
  have hMSlt : goDiv (goMod d sec) msec < 1000 := by
    have h1 : goMod d sec < sec := Int.tmod_lt_of_pos d (by norm_num [sec])
    have h2 : goDiv (goMod d sec) msec = (goMod d sec) / msec :=
      Int.tdiv_eq_ediv (Int.tmod_nonneg _ hd) (by norm_num [msec])
    rw [h2, Int.ediv_lt_iff_lt_mul (by norm_num [msec])]
    norm_num [sec, msec] at h1 ⊢
    omega
  rw [formatDuration_eq_mk d hd (String.singleton c)]
  rw [show (String.singleton c).toList = [c] from rfl]
  rw [show ∀ P F : List Char, P ++ [c] ++ F = P ++ c :: F from fun P F => by
    simp [List.append_assoc]]
  rw [parseDuration_decomposed c hdig hcolon _ _ _ _ hHn hMn hSn hMSn hMSlt]
  congr 1
  have e1 : goDiv d hour = d / hour := Int.tdiv_eq_ediv hd (by norm_num [hour])
  have e2 : goMod d hour = d % hour := Int.tmod_eq_emod hd (by norm_num [hour])
  have e3 : goMod d minute = d % minute := Int.tmod_eq_emod hd (by norm_num [minute])
  have e4 : goMod d sec = d % sec := Int.tmod_eq_emod hd (by norm_num [sec])
  have e5 : goDiv (goMod d hour) minute = (d % hour) / minute := by
    rw [e2]
    exact Int.tdiv_eq_ediv (Int.emod_nonneg d (by norm_num [hour])) (by norm_num [minute])
  have e6 : goDiv (goMod d minute) sec = (d % minute) / sec := by
    rw [e3]
    exact Int.tdiv_eq_ediv (Int.emod_nonneg d (by norm_num [minute])) (by norm_num [sec])
  have e7 : goDiv (goMod d sec) msec = (d % sec) / msec := by
    rw [e4]
    exact Int.tdiv_eq_ediv (Int.emod_nonneg d (by norm_num [sec])) (by norm_num [msec])
  have e8 : d % msec = 0 := by
    rw [← Int.tmod_eq_emod hd (by norm_num [msec])]
    exact hms
  rw [e1, e5, e6, e7]
  have key : ∀ x : Int, 0 ≤ x → x % 1000000 = 0 →
      x % 1000000000 / 1000000 * 1000000 + x % 60000000000 / 1000000000 * 1000000000
        + x % 3600000000000 / 60000000000 * 60000000000
        + x / 3600000000000 * 3600000000000 = x := by
    intro x hx hmod
    omega
  have e8' : (d : Int) % 1000000 = 0 := by
    simpa [msec] using e8
  simpa [msec, sec, minute, hour] using key (d : Int) hd e8'

theorem fmt_cx : formatDuration (10 * msec) "," 2 = "00:00:00,01" := by
  have d1 : goDiv (10 * msec) hour = 0 := by decide
  have d2 : goDiv (goMod (10 * msec) hour) minute = 0 := by decide
  have d3 : goDiv (goMod (10 * msec) minute) sec = 0 := by decide
  have d4 : goDiv (goMod (10 * msec) sec) msec = 10 := by decide
  have hz : natDigits 0 = ['0'] := by
    rw [natDigits, dif_pos (by norm_num)]
    decide
  have ho : natDigits 1 = ['1'] := by
    rw [natDigits, dif_pos (by norm_num)]
    decide
  have hg0 : goItoa 0 = "0" := by
    rw [goItoa, if_neg (by norm_num), show ((0 : Int).toNat) = 0 from rfl, hz]
  have hg1 : goItoa 1 = "1" := by
    rw [goItoa, if_neg (by norm_num), show ((1 : Int).toNat) = 1 from rfl, ho]
  have hfrac : goFormatFrac 10 2 = "01" := by
    simp only [goFormatFrac, if_neg (show ¬(2 : Int) ≤ 0 by norm_num)]
    rw [show ((2 : Int).toNat) = 2 from rfl]
    rw [show (10 : Int) * 10 ^ 2 = 1000 from by norm_num]
    rw [show goDiv 1000 1000 = 1 from by decide, show goMod 1000 1000 = 0 from by decide]
    norm_num [hg1, padZeros]
  rw [formatDuration]
  rw [d1, d2, d3, d4, hfrac]
  rw [hg0]
  rfl

theorem parse_cx : parseDuration "00:00:00,01" "," 2 = some msec := by
  have hs1 : goSplit ⟨"00:00:00".toList ++ ',' :: "01".toList⟩ (String.singleton ',')
      = ["00:00:00", "01"] := goSplit_single (by decide) (by decide)
  have hs1' : goSplit "00:00:00,01" "," = ["00:00:00", "01"] := hs1
  have hs2 : goSplit ⟨"00".toList ++ ':' :: ("00".toList ++ ':' :: "00".toList)⟩ ":"
      = ["00", "00", "00"] := goSplit_colon3 (by decide) (by decide) (by decide)
  have hs2' : goSplit "00:00:00" ":" = ["00", "00", "00"] := hs2
  have glast : (["00:00:00", "01"] : List String).getLast! = "01" := rfl
  have gtrim1 : goTrimSpace "01" = "01" := rfl
  have hlen : ("01" : String).toList.length = 2 := rfl
  have hatoi1 : goAtoi "01" = some 1 := rfl
  have gdrop : (["00:00:00", "01"] : List String).dropLast = ["00:00:00"] := rfl
  have gjoin : goJoin ["00:00:00"] "," = "00:00:00" := rfl
  have gtrimP : goTrimSpace "00:00:00" = "00:00:00" := rfl
  have g0 : (["00", "00", "00"] : List String)[0]! = "00" := rfl
  have g1 : (["00", "00", "00"] : List String)[1]! = "00" := rfl
  have g2 : (["00", "00", "00"] : List String)[2]! = "00" := rfl
  have gtrim0 : goTrimSpace "00" = "00" := rfl
  have hatoi0 : goAtoi "00" = some 0 := rfl
  have hlen0 : ("00" : String).toList.length = 2 := rfl
  simp only [parseDuration, hs1', glast, gtrim1, hlen, hatoi1, gdrop, gjoin,
    List.length_cons, List.length_nil]
  norm_num [goPow10Int]
  rw [gtrimP, hs2']
  simp only [g0, g1, g2, gtrim0, hatoi0, hlen0, List.length_cons, List.length_nil]
  norm_num
  rw [gtrim0, hatoi0]
  rw [if_pos (show 0 < ("00" : String).length by decide)]
  norm_num [msec, sec, minute, hour]

/-- C4 counterexample: with fractional width 2 and separator `","`, formatting 10ms yields
`"00:00:00,01"`, which parses back as 1ms, not 10ms — `parseDuration` multiplies the fractional
field by `10^(n - len)` (here `10^0 = 1`) instead of rescaling it to milliseconds. -/
theorem c4_duration_roundtrip_counterexample :
    parseDuration (formatDuration (10 * msec) "," 2) "," 2 = some msec
      ∧ (msec : GoDuration) ≠ 10 * msec := by
  refine ⟨?_, by norm_num [msec]⟩
  rw [fmt_cx]
  exact parse_cx

/-- Witness for C4: the amended round trip at `d = 60s`, separator `','`, width 3. -/
theorem c4_roundtrip_w3_witness :
    (0 : Int) ≤ 60 * sec ∧ goMod (60 * sec) msec = 0 ∧ (','.isDigit = false) ∧ ',' ≠ ':'
      ∧ parseDuration (formatDuration (60 * sec) (String.singleton ',') 3)
          (String.singleton ',') 3 = some (60 * sec) :=
  ⟨by decide, by decide, by decide, by decide,
    c4_roundtrip_w3 (60 * sec) (by decide) (by decide) ',' (by decide) (by decide)⟩

end Astisub
